import Mathlib

/-!
Verification development for the SERP tracking dashboard (`app.py`).

The script is a linear pipeline: collect snapshots from the search API
(writing one timestamped CSV per iteration), merge collected or uploaded
tables into one session table indexed by parsed query timestamps, derive
sentiment-based columns, filter rows by keyword, and render charts.

We shallowly embed the data transformations:
* dataframes are `DF` (a column list plus label-addressed rows of
  `Cell`s, where `Cell.na` is the missing-value marker NaN);
* the external libraries (the TextBlob polarity scorer, pandas datetime
  parsing and numeric formatting) enter as function parameters;
* the tracking loop's effects are an explicit event trace.
-/

/-- A dataframe cell: missing value (NaN), a string, or a number
(numbers are modelled as rationals). -/
inductive Cell where
  | na : Cell
  | str : String → Cell
  | num : ℚ → Cell
deriving DecidableEq, Repr

/-- A dataframe row, addressed by column label.  Well-formed frames keep
the labels of every row equal to the frame's column list, in order. -/
abbrev Row : Type := List (String × Cell)

/-- The cell of row `r` in column `c` (first matching label, `na` when
the label is absent). -/
def rowCell (r : Row) (c : String) : Cell :=
  (r.lookup c).getD Cell.na

/-- A dataframe: column labels and rows. -/
structure DF where
  cols : List String
  rows : List Row
deriving DecidableEq

/-- A dataframe with an index set (the result of `set_index`). -/
structure IDF where
  indexName : String
  index : List Cell
  cols : List String
  rows : List Row
deriving DecidableEq

/-- Every row carries exactly the frame's columns, in order. -/
def DF.WF (df : DF) : Prop :=
  ∀ r ∈ df.rows, r.map Prod.fst = df.cols

/-- The values of column `c` of a dataframe. -/
def DF.getCol (df : DF) (c : String) : List Cell :=
  df.rows.map (fun r => rowCell r c)

/-- Column assignment `df[c] = vs` in pandas: overwrite the column in
place when the label already exists, otherwise append it on the right. -/
def DF.setCol (df : DF) (c : String) (vs : List Cell) : DF :=
  if c ∈ df.cols then
    { cols := df.cols
      rows := List.zipWith
        (fun (r : Row) v => r.map (fun kv => if kv.1 = c then (c, v) else kv)) df.rows vs }
  else
    { cols := df.cols ++ [c]
      rows := List.zipWith (fun (r : Row) v => r ++ [(c, v)]) df.rows vs }

/-! ## Result Filter (`app.py` lines 150-166) -/

/-- Case folding, character by character (the effect of matching with
`case=False`). -/
def lowerChars (s : String) : List Char := s.data.map Char.toLower

/-- `series.str.contains(keyword, regex=True, case=False)` for a keyword
without regex metacharacters: a case-insensitive substring test. -/
def ciMatch (keyword s : String) : Bool :=
  decide (List.IsInfix (lowerChars keyword) (lowerChars s))

/-- A row as the result filter sees it: the two text fields it may
inspect, plus the untouched remaining payload of the row. -/
structure SRow where
  searchTerms : String
  title : String
  rest : Row
deriving DecidableEq

/-- The selector offered by the `st.selectbox` at line 151. -/
inductive FilterField where
  | searchTermsF : FilterField
  | titleF : FilterField
  | bothF : FilterField
deriving DecidableEq, Repr

/-- The row filter of lines 153-166: boolean-mask the table on the
selected field(s), taking the OR of the two masks for `Both`. -/
def filterRows (f : FilterField) (keyword : String) (t : List SRow) : List SRow :=
  match f with
  | FilterField.searchTermsF => t.filter (fun r => ciMatch keyword r.searchTerms)
  | FilterField.titleF => t.filter (fun r => ciMatch keyword r.title)
  | FilterField.bothF =>
      t.filter (fun r => ciMatch keyword r.searchTerms || ciMatch keyword r.title)

/-- The specification-level matching predicate: the keyword occurs in the
selected field as a case-insensitive substring. -/
def MatchesField (f : FilterField) (keyword : String) (r : SRow) : Prop :=
  match f with
  | FilterField.searchTermsF => lowerChars keyword <:+: lowerChars r.searchTerms
  | FilterField.titleF => lowerChars keyword <:+: lowerChars r.title
  | FilterField.bothF =>
      lowerChars keyword <:+: lowerChars r.searchTerms ∨
      lowerChars keyword <:+: lowerChars r.title

/-! ## Table Merger (`app.py` lines 79-87 and 94-102)

Both merge paths run the same four steps on a nonempty list of snapshot
tables: `pd.concat(..., ignore_index=True)`, `drop(columns="Unnamed: 0",
errors="ignore")`, `set_index("queryTime")`, and re-writing the index
through `pd.to_datetime(..., errors="coerce").strftime(...)`.  The
datetime parse-and-format step is the external pandas call; it enters as
a parameter `p : Cell → Option String` where `p c = none` models an
unparsable value (`NaT`, which `strftime` renders as the missing-value
marker `NaN`). -/

/-- Accumulate the columns of one more frame: labels not seen yet are
appended on the right. -/
def unionStep (acc : List String) (d : DF) : List String :=
  acc ++ d.cols.filter (fun c => decide (c ∉ acc))

/-- `pd.concat` column resolution: the union of the frames' columns, in
order of first appearance. -/
def unionCols (dfs : List DF) : List String :=
  dfs.foldl unionStep []

/-- `pd.concat(dfs, ignore_index=True)`: rows are reindexed to the
column union with `na` fill, and stacked in input order. -/
def concatTables (dfs : List DF) : DF :=
  { cols := unionCols dfs
    rows := dfs.flatMap
      (fun d => d.rows.map (fun r => (unionCols dfs).map (fun c => (c, rowCell r c)))) }

/-- `df.drop(columns=c, errors="ignore")`: remove the label when
present; absence is ignored. -/
def dropCol (c : String) (df : DF) : DF :=
  { cols := df.cols.filter (fun x => decide (x ≠ c))
    rows := df.rows.map (fun r => r.filter (fun kv => decide (kv.1 ≠ c))) }

/-- `df.set_index(c)`: move column `c` out of the columns and into the
index; a missing column is a `KeyError`, modelled as `none`. -/
def setIndexCol (c : String) (df : DF) : Option IDF :=
  if c ∈ df.cols then
    some { indexName := c
           index := df.rows.map (fun r => rowCell r c)
           cols := df.cols.filter (fun x => decide (x ≠ c))
           rows := df.rows.map (fun r => r.filter (fun kv => decide (kv.1 ≠ c))) }
  else none

/-- One index cell through `pd.to_datetime(..., errors="coerce")` and
`strftime`: a cell that `p` cannot parse becomes the missing-value
sentinel `na` (a `NaT`, which `strftime` renders as `NaN`). -/
def parsedCell (p : Cell → Option String) (c : Cell) : Cell :=
  match p c with
  | some s => Cell.str s
  | none => Cell.na

/-- Re-writing the whole index through the datetime parse. -/
def parseIndex (p : Cell → Option String) (t : IDF) : IDF :=
  { t with index := t.index.map (parsedCell p) }

/-- The whole merge path.  `pd.concat` of an empty list raises, modelled
as `none`; both call sites guarantee at least one table. -/
def mergeTables (p : Cell → Option String) (dfs : List DF) : Option IDF :=
  match dfs with
  | [] => none
  | _ => (setIndexCol "queryTime" (dropCol "Unnamed: 0" (concatTables dfs))).map (parseIndex p)

/-- The concatenation of the `queryTime` columns of the input tables, in
input order: what the merged table is indexed by, before parsing. -/
def queryTimeColumn (dfs : List DF) : List Cell :=
  dfs.flatMap (fun d => d.rows.map (fun r => rowCell r "queryTime"))

/-! ## Snapshot Collector (`app.py` lines 61-77)

The tracking loop is embedded as the trace of externally visible events
it performs: one API fetch and one timestamped CSV write per iteration,
and a sleep of `interval` seconds after every iteration but the last. -/

/-- One observable action of the tracking loop. -/
inductive Event where
  | fetch : Nat → Event
  | fileWrite : Nat → Event
  | sleepFor : Nat → Event
deriving DecidableEq, Repr

/-- The body of iteration `i` of the loop at lines 71-76: `record_serp`
fetches then writes one CSV; `time.sleep(interval)` runs only when
`i < iterations - 1`. -/
def iterationEvents (iterations interval i : Nat) : List Event :=
  [Event.fetch i, Event.fileWrite i] ++
    (if i < iterations - 1 then [Event.sleepFor interval] else [])

/-- The event trace of `for i in range(iterations): ...`. -/
def trackingRun (iterations interval : Nat) : List Event :=
  (List.range iterations).flatMap (iterationEvents iterations interval)

/-- The in-memory tables returned, one per iteration: `collected_dfs`
after the loop, where `fetchF i` is the table the API returns on
iteration `i`. -/
def collectedDfs (fetchF : Nat → DF) (iterations : Nat) : List DF :=
  (List.range iterations).map fetchF

/-! ## Derived-Metrics Calculator (`app.py` lines 127-132, 168-169, 210-211)

The derived columns, in the order the script assigns them:
`sentiment` and `sentiment_positive` (lines 127-132, on the session
table), `bubble_size` (lines 168-169, first broadcast to 35 and then
overwritten with the sentiment formula), `title_length` and
`sentiment_size` (lines 210-211).  The external TextBlob polarity scorer
is the parameter `polarity`; Python's `str(...)` rendering of a float is
the parameter `renderN`.  `str(float("nan")) = "nan"`. -/

/-- Python `str(x)` applied to a cell (`float("nan")` prints as `"nan"`). -/
def pyStr (renderN : ℚ → String) : Cell → String
  | Cell.na => "nan"
  | Cell.str s => s
  | Cell.num q => renderN q

/-- Elementwise `series * a + b`; arithmetic on a missing value stays
missing. -/
def cellAffine (a b : ℚ) : Cell → Cell
  | Cell.num q => Cell.num (q * a + b)
  | _ => Cell.na

/-- `series.str.len()` on one cell: character count of a string,
missing for anything else. -/
def strLenCell : Cell → Cell
  | Cell.str s => Cell.num (s.length : ℚ)
  | _ => Cell.na

/-- Line 127: `serp_csv["sentiment"] = serp_csv["title"].apply(lambda x:
TextBlob(str(x)).sentiment.polarity)`. -/
def addSentiment (polarity : String → ℚ) (renderN : ℚ → String) (df : DF) : DF :=
  df.setCol "sentiment"
    ((df.getCol "title").map (fun c => Cell.num (polarity (pyStr renderN c))))

/-- Line 132: `serp_csv["sentiment_positive"] = serp_csv["sentiment"] + 1`. -/
def addSentimentPositive (df : DF) : DF :=
  df.setCol "sentiment_positive" ((df.getCol "sentiment").map (cellAffine 1 1))

/-- Line 168: `serp_results["bubble_size"] = 35` (scalar broadcast). -/
def addBubbleInit (df : DF) : DF :=
  df.setCol "bubble_size" (df.rows.map (fun _ => Cell.num 35))

/-- Line 169: `serp_results["bubble_size"] = serp_results["sentiment_positive"] * 20 + 10`. -/
def addBubble (df : DF) : DF :=
  df.setCol "bubble_size" ((df.getCol "sentiment_positive").map (cellAffine 20 10))

/-- Line 210: `serp_results["title_length"] = serp_results["title"].str.len()`. -/
def addTitleLength (df : DF) : DF :=
  df.setCol "title_length" ((df.getCol "title").map strLenCell)

/-- Line 211: `serp_results["sentiment_size"] = serp_results["sentiment_positive"] * 20 + 10`. -/
def addSentimentSize (df : DF) : DF :=
  df.setCol "sentiment_size" ((df.getCol "sentiment_positive").map (cellAffine 20 10))

/-- The derived-column assignments, in the order the script performs
them. -/
def calcDerived (polarity : String → ℚ) (renderN : ℚ → String) (df : DF) : DF :=
  addSentimentSize (addTitleLength (addBubble (addBubbleInit
    (addSentimentPositive (addSentiment polarity renderN df)))))

/-- The names the calculator assigns, in assignment order. -/
def derivedNames : List String :=
  ["sentiment", "sentiment_positive", "bubble_size", "title_length", "sentiment_size"]

/-- The five cells the calculator appends to a row whose title cell is
`c`, when none of the derived columns pre-exists. -/
def derivedCells (polarity : String → ℚ) (renderN : ℚ → String) (c : Cell) : Row :=
  [("sentiment", Cell.num (polarity (pyStr renderN c))),
   ("sentiment_positive", Cell.num (polarity (pyStr renderN c) + 1)),
   ("bubble_size", Cell.num ((polarity (pyStr renderN c) + 1) * 20 + 10)),
   ("title_length", strLenCell c),
   ("sentiment_size", Cell.num ((polarity (pyStr renderN c) + 1) * 20 + 10))]

/-! ## CSV export and re-import (`app.py` lines 110 and 95)

The CSV artifact is modelled one level above byte strings, as the list
of its records (the comma/quote layer of `to_csv`/`read_csv` is
lossless and stays external).  What is kept is the lossy cell coding:
`to_csv` renders a missing value as the empty field, and `read_csv`
reads any NA token as missing and any numeric-looking field as a
number.  `renderN` and `parseNum` are pandas' numeric formatting and
parsing. -/

/-- Fields `read_csv` treats as missing (a representative subset of the
pandas default NA values, headed by the empty field). -/
def naTokens : List String := ["", "nan", "NaN", "NA", "N/A", "NULL", "null", "None", "n/a"]

/-- How `to_csv` renders one cell. -/
def renderCell (renderN : ℚ → String) : Cell → String
  | Cell.na => ""
  | Cell.str s => s
  | Cell.num q => renderN q

/-- How `read_csv` reads one field back. -/
def parseCell (parseNum : String → Option ℚ) (s : String) : Cell :=
  if s ∈ naTokens then Cell.na
  else match parseNum s with
    | some q => Cell.num q
    | none => Cell.str s

/-- `to_csv` on an indexed frame: a header record naming the index and
the columns, then one record per row with the rendered index first and
the cells in column order. -/
def toCSV (renderN : ℚ → String) (t : IDF) : List (List String) :=
  (t.indexName :: t.cols) ::
    List.zipWith
      (fun ix (r : Row) => renderCell renderN ix :: r.map (fun kv => renderCell renderN kv.2))
      t.index t.rows

/-- `read_csv`: the first record is the header, the rest are data rows
aligned to it positionally (an empty file raises `EmptyDataError`,
modelled as `none`). -/
def readCSV (parseNum : String → Option ℚ) (file : List (List String)) : Option DF :=
  match file with
  | [] => none
  | header :: records =>
      some { cols := header
             rows := records.map (fun r => List.zip header (r.map (parseCell parseNum))) }

/-- Export the merged table and run it back through the upload path
(lines 94-102) as a single uploaded file. -/
def roundTrip (renderN : ℚ → String) (parseNum : String → Option ℚ)
    (p : Cell → Option String) (t : IDF) : Option IDF :=
  match readCSV parseNum (toCSV renderN t) with
  | none => none
  | some df => mergeTables p [df]

/-- Cells whose CSV coding survives the export/import cycle: missing
values, strings that read back as strings, numbers that parse back to
themselves. -/
def GoodCell (renderN : ℚ → String) (parseNum : String → Option ℚ) : Cell → Prop
  | Cell.na => True
  | Cell.str s => s ∉ naTokens ∧ parseNum s = none
  | Cell.num q => renderN q ∉ naTokens ∧ parseNum (renderN q) = some q

/-! ## Theorems: Result Filter -/

lemma ciMatch_empty (s : String) : ciMatch "" s = true := by
  have h0 : lowerChars "" = [] := rfl
  simp [ciMatch, h0]

lemma ciMatch_iff (keyword s : String) :
    ciMatch keyword s = true ↔ lowerChars keyword <:+: lowerChars s := by
  simp [ciMatch]

/-- C2: for every table, keyword, and field selector, the filter keeps
exactly the rows whose selected field contains the keyword as a
case-insensitive substring, and the empty keyword keeps every row of
the table unchanged. -/
theorem filterRows_exact (f : FilterField) (keyword : String) (t : List SRow) :
    (∀ r, r ∈ filterRows f keyword t ↔ r ∈ t ∧ MatchesField f keyword r) ∧
    filterRows f "" t = t := by
  constructor
  · intro r
    cases f <;> simp [filterRows, MatchesField, List.mem_filter, ciMatch]
  · cases f <;> simp [filterRows, ciMatch_empty]

/-- C8: the filter is idempotent — filtering an already-filtered table
by the same keyword and field returns that table unchanged. -/
theorem filterRows_idem (f : FilterField) (keyword : String) (t : List SRow) :
    filterRows f keyword (filterRows f keyword t) = filterRows f keyword t := by
  cases f <;> simp [filterRows, List.filter_filter]

/-! ## Theorems: Snapshot Collector -/

/-- Recognizers for the three event kinds. -/
def isFetch : Event → Bool
  | Event.fetch _ => true
  | _ => false

def isWrite : Event → Bool
  | Event.fileWrite _ => true
  | _ => false

def isSleep : Event → Bool
  | Event.sleepFor _ => true
  | _ => false

/-- With at least one iteration, the trace is `N-1` full blocks
(fetch, write, sleep) followed by a final block with no sleep. -/
lemma trackingRun_norm (N v : Nat) (h : 1 ≤ N) :
    trackingRun N v =
      (List.range (N - 1)).flatMap
        (fun i => [Event.fetch i, Event.fileWrite i, Event.sleepFor v]) ++
      [Event.fetch (N - 1), Event.fileWrite (N - 1)] := by
  have hN : N = (N - 1) + 1 := (Nat.succ_pred_eq_of_pos h).symm
  rw [trackingRun, hN, List.range_succ, List.flatMap_append, List.flatMap_singleton]
  have hlast : iterationEvents ((N - 1) + 1) v (N - 1) =
      [Event.fetch (N - 1), Event.fileWrite (N - 1)] := by
    simp [iterationEvents]
  rw [hlast]
  congr 1
  apply List.flatMap_congr
  intro i hi
  have hilt : i < N - 1 := List.mem_range.mp hi
  have hguard : i < (N - 1 + 1) - 1 := by omega
  simp only [iterationEvents, if_pos hguard, List.cons_append, List.nil_append]

lemma countP_flatMap_blocks (p : Event → Bool) (g : Nat → List Event) (n k : Nat)
    (hg : ∀ i, (g i).countP p = k) :
    ((List.range n).flatMap g).countP p = n * k := by
  induction n with
  | zero => simp
  | succ m ih =>
      rw [List.range_succ, List.flatMap_append, List.countP_append, ih,
        List.flatMap_singleton, hg, Nat.succ_mul]

/-- C4: for every iteration count `N ≥ 1`, the collector issues exactly
`N` API fetches, performs exactly `N` timestamped CSV writes, and
returns one in-memory table per iteration. -/
theorem collector_counts (N v : Nat) (fetchF : Nat → DF) (h : 1 ≤ N) :
    (trackingRun N v).countP isFetch = N ∧
    (trackingRun N v).countP isWrite = N ∧
    (collectedDfs fetchF N).length = N := by
  have hf : ∀ i, (iterationEvents N v i).countP isFetch = 1 := by
    intro i
    by_cases hc : i < N - 1 <;> simp [iterationEvents, hc, isFetch]
  have hw : ∀ i, (iterationEvents N v i).countP isWrite = 1 := by
    intro i
    by_cases hc : i < N - 1 <;> simp [iterationEvents, hc, isWrite]
  refine ⟨?_, ?_, by simp [collectedDfs]⟩
  · rw [trackingRun, countP_flatMap_blocks isFetch _ N 1 hf, Nat.mul_one]
  · rw [trackingRun, countP_flatMap_blocks isWrite _ N 1 hw, Nat.mul_one]

/-- C10: for every iteration count `N ≥ 1`, the loop sleeps exactly
`N - 1` times, and only between consecutive iterations: the trace ends
with the final fetch and write, with no sleep after them. -/
theorem collector_sleeps (N v : Nat) (h : 1 ≤ N) :
    (trackingRun N v).countP isSleep = N - 1 ∧
    trackingRun N v =
      (List.range (N - 1)).flatMap
        (fun i => [Event.fetch i, Event.fileWrite i, Event.sleepFor v]) ++
      [Event.fetch (N - 1), Event.fileWrite (N - 1)] := by
  have hnorm := trackingRun_norm N v h
  refine ⟨?_, hnorm⟩
  rw [hnorm, List.countP_append,
    countP_flatMap_blocks isSleep _ (N - 1) 1 (by intro i; simp [isSleep])]
  simp [isSleep]

/-- Witness for C4 at `N = 3`. -/
theorem collector_counts_witness :
    (trackingRun 3 60).countP isFetch = 3 ∧
    (trackingRun 3 60).countP isWrite = 3 ∧
    (collectedDfs (fun _ => DF.mk [] []) 3).length = 3 :=
  collector_counts 3 60 (fun _ => DF.mk [] []) (by decide)

/-- Witness for C10 at `N = 3`. -/
theorem collector_sleeps_witness :
    (trackingRun 3 60).countP isSleep = 3 - 1 ∧
    trackingRun 3 60 =
      (List.range (3 - 1)).flatMap
        (fun i => [Event.fetch i, Event.fileWrite i, Event.sleepFor 60]) ++
      [Event.fetch (3 - 1), Event.fileWrite (3 - 1)] :=
  collector_sleeps 3 60 (by decide)

/-! ## Theorems: Table Merger -/

lemma lookup_map_pair (cs : List String) (g : String → Cell) (c : String) (h : c ∈ cs) :
    List.lookup c (cs.map (fun x => (x, g x))) = some (g c) := by
  induction cs with
  | nil => cases h
  | cons x cs ih =>
      by_cases hx : c = x
      · subst hx
        simp [List.lookup_cons]
      · have hb : (c == x) = false := beq_eq_false_iff_ne.mpr hx
        have hc : c ∈ cs := (List.mem_cons.mp h).resolve_left hx
        simp [List.lookup_cons, hb, ih hc]

lemma rowCell_reindex (cs : List String) (g : String → Cell) (c : String) (h : c ∈ cs) :
    rowCell (cs.map (fun x => (x, g x))) c = g c := by
  rw [rowCell, lookup_map_pair cs g c h]
  rfl

lemma lookup_filter_ne (u c : String) (h : c ≠ u) (r : Row) :
    List.lookup c (r.filter (fun kv => decide (kv.1 ≠ u))) = List.lookup c r := by
  induction r with
  | nil => rfl
  | cons kv r ih =>
      obtain ⟨k, v⟩ := kv
      rw [List.filter_cons]
      by_cases hk : k = u
      · subst hk
        rw [if_neg (by simp), ih, List.lookup_cons]
        have hb : (c == k) = false := beq_eq_false_iff_ne.mpr h
        simp [hb]
      · rw [if_pos (by simp [hk]), List.lookup_cons, List.lookup_cons, ih]

lemma rowCell_filter_ne (u c : String) (h : c ≠ u) (r : Row) :
    rowCell (r.filter (fun kv => decide (kv.1 ≠ u))) c = rowCell r c := by
  rw [rowCell, rowCell, lookup_filter_ne u c h]

lemma mem_foldl_unionStep (c : String) (dfs : List DF) :
    ∀ acc, (c ∈ acc ∨ ∃ d ∈ dfs, c ∈ d.cols) → c ∈ dfs.foldl unionStep acc := by
  induction dfs with
  | nil =>
      intro acc h
      simpa using h
  | cons d dfs ih =>
      intro acc h
      rw [List.foldl_cons]
      apply ih
      rcases h with hacc | ⟨e, he, hc⟩
      · exact Or.inl (List.mem_append_left _ hacc)
      · rcases List.mem_cons.mp he with rfl | hmem
        · left
          by_cases hin : c ∈ acc
          · exact List.mem_append_left _ hin
          · exact List.mem_append_right _ (List.mem_filter.mpr ⟨hc, by simpa using hin⟩)
        · exact Or.inr ⟨e, hmem, hc⟩

lemma mem_unionCols {c : String} {dfs : List DF} {d : DF} (hd : d ∈ dfs)
    (hc : c ∈ d.cols) : c ∈ unionCols dfs :=
  mem_foldl_unionStep c dfs [] (Or.inr ⟨d, hd, hc⟩)

lemma concatTables_rows_length (dfs : List DF) :
    (concatTables dfs).rows.length = (dfs.map (fun d => d.rows.length)).sum := by
  rw [concatTables]
  show (dfs.flatMap _).length = _
  rw [List.length_flatMap]
  apply congrArg List.sum
  apply List.map_congr_left
  intro d _
  simp [Function.comp]

lemma concatTables_queryTime (dfs : List DF) (h : "queryTime" ∈ unionCols dfs) :
    (concatTables dfs).rows.map (fun r => rowCell r "queryTime") = queryTimeColumn dfs := by
  rw [concatTables, queryTimeColumn]
  rw [List.map_flatMap]
  apply List.flatMap_congr
  intro d _
  rw [List.map_map]
  apply List.map_congr_left
  intro r _
  exact rowCell_reindex _ _ _ h

/-- The merge path, fully characterized: it succeeds, row counts add,
the artifact column is gone, and the index is the parsed `queryTime`
column.  Shared backbone of the merger theorems. -/
lemma mergeTables_full (p : Cell → Option String) (dfs : List DF)
    (hne : dfs ≠ []) (hq : ∀ d ∈ dfs, "queryTime" ∈ d.cols) :
    ∃ t, mergeTables p dfs = some t ∧
      t.indexName = "queryTime" ∧
      t.rows.length = (dfs.map (fun d => d.rows.length)).sum ∧
      "Unnamed: 0" ∉ t.cols ∧
      t.index = (queryTimeColumn dfs).map (parsedCell p) := by
  have hqU : "queryTime" ∈ unionCols dfs := by
    obtain ⟨d0, hd0⟩ := List.exists_mem_of_ne_nil dfs hne
    exact mem_unionCols hd0 (hq d0 hd0)
  have hqD : "queryTime" ∈ (dropCol "Unnamed: 0" (concatTables dfs)).cols := by
    rw [dropCol]
    exact List.mem_filter.mpr ⟨hqU, by decide⟩
  obtain ⟨d, rest, rfl⟩ : ∃ d rest, dfs = d :: rest := by
    cases dfs with
    | nil => exact absurd rfl hne
    | cons d rest => exact ⟨d, rest, rfl⟩
  set C := concatTables (d :: rest) with hC
  set D := dropCol "Unnamed: 0" C with hD
  have hset : setIndexCol "queryTime" D = some
      { indexName := "queryTime"
        index := D.rows.map (fun r => rowCell r "queryTime")
        cols := D.cols.filter (fun x => decide (x ≠ "queryTime"))
        rows := D.rows.map (fun r => r.filter (fun kv => decide (kv.1 ≠ "queryTime"))) } := by
    rw [setIndexCol, if_pos hqD]
  have hmerge : mergeTables p (d :: rest) = (setIndexCol "queryTime" D).map (parseIndex p) := rfl
  refine ⟨_, by rw [hmerge, hset]; rfl, rfl, ?_, ?_, ?_⟩
  · show (D.rows.map (fun r => r.filter (fun kv => decide (kv.1 ≠ "queryTime")))).length = _
    rw [List.length_map]
    rw [hD, dropCol]
    show (C.rows.map _).length = _
    rw [List.length_map, hC, concatTables_rows_length]
  · intro hmem
    have h1 : "Unnamed: 0" ∈ D.cols := List.mem_of_mem_filter hmem
    rw [hD, dropCol] at h1
    have h2 := (List.mem_filter.mp h1).2
    simp at h2
  · show (D.rows.map (fun r => rowCell r "queryTime")).map (parsedCell p) = _
    have hstep1 : D.rows.map (fun r => rowCell r "queryTime") =
        C.rows.map (fun r => rowCell r "queryTime") := by
      rw [hD, dropCol]
      show (C.rows.map _).map _ = _
      rw [List.map_map]
      apply List.map_congr_left
      intro r _
      exact rowCell_filter_ne _ _ (by decide) r
    rw [hstep1, hC, concatTables_queryTime _ hqU]

/-- C3: merging `K ≥ 1` snapshot tables yields one table whose row
count is the sum of the inputs' row counts, with the incidental
`"Unnamed: 0"` artifact column dropped whether or not it was present,
indexed by the parsed query timestamps. -/
theorem mergeTables_spec (p : Cell → Option String) (dfs : List DF)
    (hne : dfs ≠ []) (hq : ∀ d ∈ dfs, "queryTime" ∈ d.cols) :
    ∃ t, mergeTables p dfs = some t ∧
      t.rows.length = (dfs.map (fun d => d.rows.length)).sum ∧
      "Unnamed: 0" ∉ t.cols ∧
      t.indexName = "queryTime" ∧
      t.index = (queryTimeColumn dfs).map (parsedCell p) := by
  obtain ⟨t, h1, h2, h3, h4, h5⟩ := mergeTables_full p dfs hne hq
  exact ⟨t, h1, h3, h4, h2, h5⟩

/-- C5: the merge never fails on unparsable query timestamps — it still
produces a table, and every position whose timestamp the datetime parser
rejects carries the missing-value sentinel in the index. -/
theorem mergeTables_coerces (p : Cell → Option String) (dfs : List DF)
    (hne : dfs ≠ []) (hq : ∀ d ∈ dfs, "queryTime" ∈ d.cols) :
    ∃ t, mergeTables p dfs = some t ∧
      ∀ (i : ℕ) (c : Cell), (queryTimeColumn dfs)[i]? = some c → p c = none →
        t.index[i]? = some Cell.na := by
  obtain ⟨t, h1, _, _, _, h5⟩ := mergeTables_full p dfs hne hq
  refine ⟨t, h1, ?_⟩
  intro i c hc hp
  rw [h5, List.getElem?_map, hc]
  simp [parsedCell, hp]

/-- A concrete datetime parser: accepts the one date the sample tables
use, rejects everything else. -/
def p0 : Cell → Option String :=
  fun c => match c with
  | Cell.str s => if s = "2024-01-01" then some "2024-01-01 00:00:00" else none
  | _ => none

/-- A sample snapshot table without the artifact column. -/
def dfA : DF :=
  { cols := ["queryTime", "title"]
    rows := [[("queryTime", Cell.str "2024-01-01"), ("title", Cell.str "A")]] }

/-- A sample snapshot table with the artifact column and an unparsable
timestamp. -/
def dfB : DF :=
  { cols := ["Unnamed: 0", "queryTime"]
    rows := [[("Unnamed: 0", Cell.num 0), ("queryTime", Cell.str "bad-time")],
             [("Unnamed: 0", Cell.num 1), ("queryTime", Cell.str "2024-01-01")]] }

/-- Witness for C3 on two concrete snapshot tables. -/
theorem mergeTables_spec_witness :
    ∃ t, mergeTables p0 [dfA, dfB] = some t ∧
      t.rows.length = ([dfA, dfB].map (fun d => d.rows.length)).sum ∧
      "Unnamed: 0" ∉ t.cols ∧
      t.indexName = "queryTime" ∧
      t.index = (queryTimeColumn [dfA, dfB]).map (parsedCell p0) :=
  mergeTables_spec p0 [dfA, dfB] (by simp) (by decide)

/-- Witness for C5 on the same tables, one timestamp being unparsable. -/
theorem mergeTables_coerces_witness :
    ∃ t, mergeTables p0 [dfA, dfB] = some t ∧
      ∀ (i : ℕ) (c : Cell), (queryTimeColumn [dfA, dfB])[i]? = some c → p0 c = none →
        t.index[i]? = some Cell.na :=
  mergeTables_coerces p0 [dfA, dfB] (by simp) (by decide)

/-! ## Theorems: Derived-Metrics Calculator -/

lemma lookup_eq_none_of_not_mem {c : String} {l : Row} (h : c ∉ l.map Prod.fst) :
    List.lookup c l = none := by
  induction l with
  | nil => rfl
  | cons kv l ih =>
      obtain ⟨k, v⟩ := kv
      rw [List.map_cons] at h
      have hk : (c == k) = false :=
        beq_eq_false_iff_ne.mpr (List.ne_of_not_mem_cons h)
      simp only [List.lookup_cons, hk]
      exact ih (List.not_mem_of_not_mem_cons h)

lemma rowCell_append_right {c : String} {r : Row} (l : Row) (h : c ∉ r.map Prod.fst) :
    rowCell (r ++ l) c = rowCell l c := by
  induction r with
  | nil => rfl
  | cons kv r ih =>
      obtain ⟨k, v⟩ := kv
      rw [List.map_cons] at h
      have hk : (c == k) = false :=
        beq_eq_false_iff_ne.mpr (List.ne_of_not_mem_cons h)
      rw [List.cons_append, rowCell, List.lookup_cons]
      simp only [hk]
      exact ih (List.not_mem_of_not_mem_cons h)

lemma rowCell_append_left {c : String} (r : Row) {l : Row} (h : c ∉ l.map Prod.fst) :
    rowCell (r ++ l) c = rowCell r c := by
  induction r with
  | nil =>
      rw [List.nil_append, rowCell, lookup_eq_none_of_not_mem h]
      rfl
  | cons kv r ih =>
      obtain ⟨k, v⟩ := kv
      rw [List.cons_append, rowCell, rowCell, List.lookup_cons, List.lookup_cons]
      cases hck : (c == k)
      · rw [rowCell, rowCell] at ih
        simpa using ih
      · rfl

lemma rowCell_single (c : String) (v : Cell) : rowCell [(c, v)] c = v := by
  simp [rowCell, List.lookup_cons]

lemma rowCell_append_single (c : String) (v : Cell) (r : Row) (h : c ∉ r.map Prod.fst) :
    rowCell (r ++ [(c, v)]) c = v := by
  rw [rowCell_append_right _ h, rowCell_single]

lemma map_subst_of_not_mem (c : String) (v : Cell) (r : Row) (h : c ∉ r.map Prod.fst) :
    r.map (fun kv => if kv.1 = c then (c, v) else kv) = r := by
  induction r with
  | nil => rfl
  | cons kv r ih =>
      rw [List.map_cons] at h
      have h1 : kv.1 ≠ c := fun hh => (List.ne_of_not_mem_cons h) hh.symm
      rw [List.map_cons, if_neg h1, ih (List.not_mem_of_not_mem_cons h)]

lemma not_mem_append_cols {c : String} {l : List String} (h1 : c ∉ l)
    {tail : List String} (h2 : c ∉ tail) : c ∉ l ++ tail := by
  intro hmem
  rcases List.mem_append.mp hmem with h | h
  exacts [h1 h, h2 h]

lemma setCol_append (df : DF) (c : String) (g : Row → Cell) (hc : c ∉ df.cols) :
    df.setCol c (df.rows.map g) =
      { cols := df.cols ++ [c]
        rows := df.rows.map (fun r => r ++ [(c, g r)]) } := by
  rw [DF.setCol, if_neg hc]
  congr 1
  rw [List.zipWith_map_right, List.zipWith_same]

lemma setCol_replace (df : DF) (c : String) (g : Row → Cell) (hc : c ∈ df.cols) :
    df.setCol c (df.rows.map g) =
      { cols := df.cols
        rows := df.rows.map
          (fun r => r.map (fun kv => if kv.1 = c then (c, g r) else kv)) } := by
  rw [DF.setCol, if_pos hc]
  congr 1
  rw [List.zipWith_map_right, List.zipWith_same]

lemma getCol_map (E : DF) (y : String) (f : Cell → Cell) :
    (E.getCol y).map f = E.rows.map (fun r => f (rowCell r y)) := by
  rw [DF.getCol, List.map_map]
  rfl

lemma addSentiment_eq (polarity : String → ℚ) (renderN : ℚ → String) (df : DF)
    (hs : "sentiment" ∉ df.cols) :
    addSentiment polarity renderN df =
      { cols := df.cols ++ ["sentiment"]
        rows := df.rows.map (fun r =>
          r ++ [("sentiment", Cell.num (polarity (pyStr renderN (rowCell r "title"))))]) } := by
  rw [addSentiment, getCol_map]
  exact setCol_append df _ _ hs

lemma addSentimentPositive_eq (df : DF) (h : "sentiment_positive" ∉ df.cols) :
    addSentimentPositive df =
      { cols := df.cols ++ ["sentiment_positive"]
        rows := df.rows.map (fun r =>
          r ++ [("sentiment_positive", cellAffine 1 1 (rowCell r "sentiment"))]) } := by
  rw [addSentimentPositive, getCol_map]
  exact setCol_append df _ _ h

lemma addBubbleInit_eq (df : DF) (h : "bubble_size" ∉ df.cols) :
    addBubbleInit df =
      { cols := df.cols ++ ["bubble_size"]
        rows := df.rows.map (fun r => r ++ [("bubble_size", Cell.num 35)]) } := by
  rw [addBubbleInit]
  exact setCol_append df _ (fun _ => Cell.num 35) h

lemma addBubble_eq (df : DF) (h : "bubble_size" ∈ df.cols) :
    addBubble df =
      { cols := df.cols
        rows := df.rows.map (fun r => r.map (fun kv =>
          if kv.1 = "bubble_size"
          then ("bubble_size", cellAffine 20 10 (rowCell r "sentiment_positive"))
          else kv)) } := by
  rw [addBubble, getCol_map]
  exact setCol_replace df _ _ h

lemma addTitleLength_eq (df : DF) (h : "title_length" ∉ df.cols) :
    addTitleLength df =
      { cols := df.cols ++ ["title_length"]
        rows := df.rows.map (fun r => r ++ [("title_length", strLenCell (rowCell r "title"))]) } := by
  rw [addTitleLength, getCol_map]
  exact setCol_append df _ _ h

lemma addSentimentSize_eq (df : DF) (h : "sentiment_size" ∉ df.cols) :
    addSentimentSize df =
      { cols := df.cols ++ ["sentiment_size"]
        rows := df.rows.map (fun r =>
          r ++ [("sentiment_size", cellAffine 20 10 (rowCell r "sentiment_positive"))]) } := by
  rw [addSentimentSize, getCol_map]
  exact setCol_append df _ _ h

lemma not_mem_map_fst_single (c c' : String) (v : Cell) (h : c ≠ c') :
    c ∉ ([(c', v)] : Row).map Prod.fst := by
  intro hmem
  rw [List.map_cons, List.map_nil] at hmem
  exact h (List.mem_singleton.mp hmem)

lemma map_fst_append_single (X : Row) (c' : String) (v : Cell) :
    (X ++ [(c', v)]).map Prod.fst = X.map Prod.fst ++ [c'] := by
  rw [List.map_append]
  rfl

/-- The calculator in closed form when no derived label pre-exists: it
appends exactly the five derived cells to every row. -/
lemma calcDerived_norm (polarity : String → ℚ) (renderN : ℚ → String) (df : DF)
    (hWF : df.WF) (hfresh : ∀ n ∈ derivedNames, n ∉ df.cols) :
    calcDerived polarity renderN df =
      { cols := df.cols ++ derivedNames
        rows := df.rows.map (fun r =>
          r ++ derivedCells polarity renderN (rowCell r "title")) } := by
  have hs : "sentiment" ∉ df.cols := hfresh _ (by simp [derivedNames])
  have hsp : "sentiment_positive" ∉ df.cols := hfresh _ (by simp [derivedNames])
  have hbs : "bubble_size" ∉ df.cols := hfresh _ (by simp [derivedNames])
  have htl : "title_length" ∉ df.cols := hfresh _ (by simp [derivedNames])
  have hss : "sentiment_size" ∉ df.cols := hfresh _ (by simp [derivedNames])
  rw [calcDerived, addSentiment_eq polarity renderN df hs]
  rw [addSentimentPositive_eq]
  swap
  · show "sentiment_positive" ∉ df.cols ++ ["sentiment"]
    exact not_mem_append_cols hsp (by decide)
  rw [addBubbleInit_eq]
  swap
  · show "bubble_size" ∉ (df.cols ++ ["sentiment"]) ++ ["sentiment_positive"]
    exact not_mem_append_cols (not_mem_append_cols hbs (by decide)) (by decide)
  rw [addBubble_eq]
  swap
  · show "bubble_size" ∈
      ((df.cols ++ ["sentiment"]) ++ ["sentiment_positive"]) ++ ["bubble_size"]
    exact List.mem_append_right _ (by decide)
  rw [addTitleLength_eq]
  swap
  · show "title_length" ∉
      ((df.cols ++ ["sentiment"]) ++ ["sentiment_positive"]) ++ ["bubble_size"]
    exact not_mem_append_cols
      (not_mem_append_cols (not_mem_append_cols htl (by decide)) (by decide)) (by decide)
  rw [addSentimentSize_eq]
  swap
  · show "sentiment_size" ∉
      (((df.cols ++ ["sentiment"]) ++ ["sentiment_positive"]) ++ ["bubble_size"]) ++
        ["title_length"]
    exact not_mem_append_cols (not_mem_append_cols
      (not_mem_append_cols (not_mem_append_cols hss (by decide)) (by decide)) (by decide))
      (by decide)
  congr 1
  · simp [derivedNames, List.append_assoc]
  · simp only [List.map_map]
    apply List.map_congr_left
    intro r hr
    simp only [Function.comp]
    have hsr : "sentiment" ∉ r.map Prod.fst := by rw [hWF r hr]; exact hs
    have hspr : "sentiment_positive" ∉ r.map Prod.fst := by rw [hWF r hr]; exact hsp
    have hbsr : "bubble_size" ∉ r.map Prod.fst := by rw [hWF r hr]; exact hbs
    rw [rowCell_append_single "sentiment" _ r hsr]
    rw [show ∀ q : ℚ, cellAffine 1 1 (Cell.num q) = Cell.num (q + 1) from
      fun q => by simp [cellAffine]]
    have hspA : "sentiment_positive" ∉
        (r ++ [("sentiment",
          Cell.num (polarity (pyStr renderN (rowCell r "title"))))]).map Prod.fst := by
      rw [map_fst_append_single]
      exact not_mem_append_cols hspr (by decide)
    rw [rowCell_append_left _
      (not_mem_map_fst_single "sentiment_positive" "bubble_size" (Cell.num 35) (by decide))]
    rw [rowCell_append_single "sentiment_positive" _ _ hspA]
    rw [show ∀ q : ℚ, cellAffine 20 10 (Cell.num q) = Cell.num (q * 20 + 10) from
      fun q => rfl]
    rw [List.map_append]
    have hbsB : "bubble_size" ∉
        ((r ++ [("sentiment",
            Cell.num (polarity (pyStr renderN (rowCell r "title"))))]) ++
          [("sentiment_positive",
            Cell.num (polarity (pyStr renderN (rowCell r "title")) + 1))]).map Prod.fst := by
      rw [map_fst_append_single, map_fst_append_single]
      exact not_mem_append_cols (not_mem_append_cols hbsr (by decide)) (by decide)
    rw [map_subst_of_not_mem _ _ _ hbsB]
    rw [show List.map
        (fun kv => if kv.1 = "bubble_size"
          then ("bubble_size",
            Cell.num ((polarity (pyStr renderN (rowCell r "title")) + 1) * 20 + 10))
          else kv)
        [("bubble_size", Cell.num 35)] =
        [("bubble_size",
          Cell.num ((polarity (pyStr renderN (rowCell r "title")) + 1) * 20 + 10))] from
      by simp]
    rw [rowCell_append_left _ (not_mem_map_fst_single "title" "bubble_size" _ (by decide))]
    rw [rowCell_append_left _ (not_mem_map_fst_single "title" "sentiment_positive" _ (by decide))]
    rw [rowCell_append_left _ (not_mem_map_fst_single "title" "sentiment" _ (by decide))]
    rw [rowCell_append_left _
      (not_mem_map_fst_single "sentiment_positive" "title_length" _ (by decide))]
    rw [rowCell_append_left _
      (not_mem_map_fst_single "sentiment_positive" "bubble_size" _ (by decide))]
    rw [rowCell_append_single "sentiment_positive" _ _ hspA]
    simp [derivedCells, List.append_assoc, cellAffine]

lemma derived_labels (polarity : String → ℚ) (renderN : ℚ → String) (c : Cell) :
    (derivedCells polarity renderN c).map Prod.fst = derivedNames := rfl

lemma rowCell_derived_sentiment (polarity : String → ℚ) (renderN : ℚ → String) (c : Cell) :
    rowCell (derivedCells polarity renderN c) "sentiment" =
      Cell.num (polarity (pyStr renderN c)) := rfl

lemma rowCell_derived_sp (polarity : String → ℚ) (renderN : ℚ → String) (c : Cell) :
    rowCell (derivedCells polarity renderN c) "sentiment_positive" =
      Cell.num (polarity (pyStr renderN c) + 1) := rfl

lemma rowCell_derived_bubble (polarity : String → ℚ) (renderN : ℚ → String) (c : Cell) :
    rowCell (derivedCells polarity renderN c) "bubble_size" =
      Cell.num ((polarity (pyStr renderN c) + 1) * 20 + 10) := rfl

lemma rowCell_derived_titleLen (polarity : String → ℚ) (renderN : ℚ → String) (c : Cell) :
    rowCell (derivedCells polarity renderN c) "title_length" = strLenCell c := rfl

/-- C1: when the polarity scorer stays within `[-1, 1]` (TextBlob's
documented range), every row of the table carries a sentiment score in
`[-1, 1]`, a shifted-positive sentiment equal to sentiment + 1, hence in
`[0, 2]`, and a bubble size equal to shifted sentiment * 20 + 10. -/
theorem derived_metrics_ranges (polarity : String → ℚ) (renderN : ℚ → String) (df : DF)
    (hWF : df.WF) (hfresh : ∀ n ∈ derivedNames, n ∉ df.cols)
    (hb : ∀ s, -1 ≤ polarity s ∧ polarity s ≤ 1) :
    ∀ r ∈ (calcDerived polarity renderN df).rows,
      ∃ s : ℚ,
        rowCell r "sentiment" = Cell.num s ∧
        -1 ≤ s ∧ s ≤ 1 ∧
        rowCell r "sentiment_positive" = Cell.num (s + 1) ∧
        0 ≤ s + 1 ∧ s + 1 ≤ 2 ∧
        rowCell r "bubble_size" = Cell.num ((s + 1) * 20 + 10) := by
  rw [calcDerived_norm polarity renderN df hWF hfresh]
  intro r hr
  obtain ⟨r0, hr0, rfl⟩ := List.mem_map.mp hr
  have hlab : ∀ n ∈ derivedNames, n ∉ r0.map Prod.fst := by
    intro n hn
    rw [hWF r0 hr0]
    exact hfresh n hn
  refine ⟨polarity (pyStr renderN (rowCell r0 "title")), ?_,
    (hb _).1, (hb _).2, ?_, by linarith [(hb (pyStr renderN (rowCell r0 "title"))).1],
    by linarith [(hb (pyStr renderN (rowCell r0 "title"))).2], ?_⟩
  · rw [rowCell_append_right _ (hlab _ (by simp [derivedNames])),
      rowCell_derived_sentiment]
  · rw [rowCell_append_right _ (hlab _ (by simp [derivedNames])),
      rowCell_derived_sp]
  · rw [rowCell_append_right _ (hlab _ (by simp [derivedNames])),
      rowCell_derived_bubble]

/-- The single output row of the calculator on a one-title table under
the constant-zero scorer. -/
def rowW1 : Row :=
  [("title", Cell.str "A")] ++ derivedCells (fun _ => 0) (fun _ => "") (Cell.str "A")

/-- Witness for C1 on a one-row table with the constant-zero scorer. -/
theorem derived_metrics_ranges_witness :
    ∃ s : ℚ,
      rowCell rowW1 "sentiment" = Cell.num s ∧
      -1 ≤ s ∧ s ≤ 1 ∧
      rowCell rowW1 "sentiment_positive" = Cell.num (s + 1) ∧
      0 ≤ s + 1 ∧ s + 1 ≤ 2 ∧
      rowCell rowW1 "bubble_size" = Cell.num ((s + 1) * 20 + 10) :=
  derived_metrics_ranges (fun _ => 0) (fun _ => "")
    (DF.mk ["title"] [[("title", Cell.str "A")]])
    (by intro r hr; simp at hr; rw [hr]; rfl)
    (by decide)
    (fun s => ⟨by norm_num, by norm_num⟩)
    rowW1
    (by
      rw [calcDerived_norm (fun _ => 0) (fun _ => "")
        (DF.mk ["title"] [[("title", Cell.str "A")]])
        (by intro r hr; simp at hr; rw [hr]; rfl) (by decide)]
      exact List.mem_singleton.mpr rfl)

/-- C6: the calculator is total, coercing non-string titles instead of
failing.  When the scorer gives lexicon-free renderings (the string
`"nan"` and numeric renderings) a neutral score, a missing or numeric
title yields neutral sentiment (0, shifted 1) and a missing title
length; a string title is scored and measured directly, with no other
special case. -/
theorem derived_metrics_coercion (polarity : String → ℚ) (renderN : ℚ → String) (df : DF)
    (hWF : df.WF) (hfresh : ∀ n ∈ derivedNames, n ∉ df.cols)
    (hnan : polarity "nan" = 0) (hnum : ∀ q, polarity (renderN q) = 0) :
    ∀ r ∈ (calcDerived polarity renderN df).rows,
      ((rowCell r "title" = Cell.na ∨ (∃ q, rowCell r "title" = Cell.num q)) →
        rowCell r "sentiment" = Cell.num 0 ∧
        rowCell r "sentiment_positive" = Cell.num 1 ∧
        rowCell r "title_length" = Cell.na) ∧
      (∀ s, rowCell r "title" = Cell.str s →
        rowCell r "sentiment" = Cell.num (polarity s) ∧
        rowCell r "title_length" = Cell.num (s.length : ℚ)) := by
  rw [calcDerived_norm polarity renderN df hWF hfresh]
  intro r hr
  obtain ⟨r0, hr0, rfl⟩ := List.mem_map.mp hr
  have hlab : ∀ n ∈ derivedNames, n ∉ r0.map Prod.fst := by
    intro n hn
    rw [hWF r0 hr0]
    exact hfresh n hn
  have htitle : rowCell (r0 ++ derivedCells polarity renderN (rowCell r0 "title")) "title" =
      rowCell r0 "title" := by
    apply rowCell_append_left
    rw [derived_labels]
    decide
  have hsent : rowCell (r0 ++ derivedCells polarity renderN (rowCell r0 "title")) "sentiment" =
      Cell.num (polarity (pyStr renderN (rowCell r0 "title"))) := by
    rw [rowCell_append_right _ (hlab _ (by simp [derivedNames])), rowCell_derived_sentiment]
  have hspos : rowCell (r0 ++ derivedCells polarity renderN (rowCell r0 "title"))
      "sentiment_positive" = Cell.num (polarity (pyStr renderN (rowCell r0 "title")) + 1) := by
    rw [rowCell_append_right _ (hlab _ (by simp [derivedNames])), rowCell_derived_sp]
  have hlen : rowCell (r0 ++ derivedCells polarity renderN (rowCell r0 "title"))
      "title_length" = strLenCell (rowCell r0 "title") := by
    rw [rowCell_append_right _ (hlab _ (by simp [derivedNames])), rowCell_derived_titleLen]
  constructor
  · intro hcase
    rw [htitle] at hcase
    have hzero : polarity (pyStr renderN (rowCell r0 "title")) = 0 := by
      rcases hcase with h | ⟨q, h⟩
      · rw [h]; exact hnan
      · rw [h]; exact hnum q
    refine ⟨by rw [hsent, hzero], by rw [hspos, hzero]; norm_num, ?_⟩
    rw [hlen]
    rcases hcase with h | ⟨q, h⟩ <;> rw [h] <;> rfl
  · intro s hcase
    rw [htitle] at hcase
    refine ⟨by rw [hsent, hcase]; rfl, ?_⟩
    rw [hlen, hcase]
    rfl

/-- The output row of the calculator for a missing title under the
constant-zero scorer. -/
def rowW6 : Row :=
  [("title", Cell.na)] ++ derivedCells (fun _ => 0) (fun _ => "") Cell.na

/-- Witness for C6 on the output row for a missing title, under the
constant-zero scorer. -/
theorem derived_metrics_coercion_witness :
    ((rowCell rowW6 "title" = Cell.na ∨ (∃ q, rowCell rowW6 "title" = Cell.num q)) →
      rowCell rowW6 "sentiment" = Cell.num 0 ∧
      rowCell rowW6 "sentiment_positive" = Cell.num 1 ∧
      rowCell rowW6 "title_length" = Cell.na) ∧
    (∀ s, rowCell rowW6 "title" = Cell.str s →
      rowCell rowW6 "sentiment" = Cell.num ((fun _ => (0 : ℚ)) s) ∧
      rowCell rowW6 "title_length" = Cell.num (s.length : ℚ)) :=
  derived_metrics_coercion (fun _ => 0) (fun _ => "")
    (DF.mk ["title"] [[("title", Cell.na)]])
    (by intro r hr; simp at hr; rw [hr]; rfl)
    (by decide) rfl (fun _ => rfl)
    rowW6
    (by
      rw [calcDerived_norm (fun _ => 0) (fun _ => "")
        (DF.mk ["title"] [[("title", Cell.na)]])
        (by intro r hr; simp at hr; rw [hr]; rfl) (by decide)]
      exact List.mem_singleton.mpr rfl)

/-- A one-row sample table for the calculator. -/
def dfT : DF := { cols := ["title"], rows := [[("title", Cell.str "A")]] }

/-- Counterexample to C7 as stated: the calculator does not add only the
four listed derived columns — on a concrete one-row table its output
columns are not the original columns plus (sentiment, shifted-positive
sentiment, bubble size, title length), because line 211 also assigns a
fifth `sentiment_size` column. -/
theorem calcDerived_not_only_four :
    ¬ ((calcDerived (fun _ => 0) (fun _ => "") dfT).cols =
        dfT.cols ++ ["sentiment", "sentiment_positive", "bubble_size", "title_length"]) := by
  decide

/-- C7 (amended): the calculator is pure in the frame sense — it leaves
every pre-existing row and column unchanged and only appends the derived
columns, which are sentiment, shifted-positive sentiment, bubble size,
title length, and a fifth `sentiment_size` column (equal to bubble
size). -/
theorem calcDerived_frame (polarity : String → ℚ) (renderN : ℚ → String) (df : DF)
    (hWF : df.WF) (hfresh : ∀ n ∈ derivedNames, n ∉ df.cols) :
    (calcDerived polarity renderN df).cols = df.cols ++ derivedNames ∧
    (calcDerived polarity renderN df).rows =
      df.rows.map (fun r => r ++ derivedCells polarity renderN (rowCell r "title")) := by
  rw [calcDerived_norm polarity renderN df hWF hfresh]
  exact ⟨rfl, rfl⟩

/-- Witness for the amended C7 on the sample table. -/
theorem calcDerived_frame_witness :
    (calcDerived (fun _ => 0) (fun _ => "") dfT).cols = dfT.cols ++ derivedNames ∧
    (calcDerived (fun _ => 0) (fun _ => "") dfT).rows =
      dfT.rows.map (fun r => r ++ derivedCells (fun _ => 0) (fun _ => "") (rowCell r "title")) :=
  calcDerived_frame (fun _ => 0) (fun _ => "") dfT
    (by intro r hr; simp [dfT] at hr; rw [hr]; rfl)
    (by decide)

/-! ## Theorems: CSV round trip -/

lemma parseCell_renderCell (renderN : ℚ → String) (parseNum : String → Option ℚ)
    (c : Cell) (h : GoodCell renderN parseNum c) :
    parseCell parseNum (renderCell renderN c) = c := by
  cases c with
  | na => rfl
  | str s =>
      obtain ⟨h1, h2⟩ := h
      rw [renderCell, parseCell, if_neg h1, h2]
  | num q =>
      obtain ⟨h1, h2⟩ := h
      rw [renderCell, parseCell, if_neg h1, h2]

lemma zip_map_fst_snd (r : Row) : List.zip (r.map Prod.fst) (r.map Prod.snd) = r := by
  induction r with
  | nil => rfl
  | cons kv r ih => rw [List.map_cons, List.map_cons, List.zip_cons_cons, ih]

lemma zipWith_congr_right {α β γ : Type} (f g : α → β → γ) (l : List α) (l2 : List β)
    (h : ∀ b ∈ l2, ∀ a, f a b = g a b) : List.zipWith f l l2 = List.zipWith g l l2 := by
  induction l generalizing l2 with
  | nil => rfl
  | cons a l ih =>
      cases l2 with
      | nil => rfl
      | cons b l2 =>
          rw [List.zipWith_cons_cons, List.zipWith_cons_cons,
            h b (List.mem_cons_self b l2) a, ih l2 (fun x hx a₀ => h x (List.mem_cons_of_mem b hx) a₀)]

lemma zipWith_snd_eq {α β : Type} (l : List α) (l2 : List β) (h : l2.length ≤ l.length) :
    List.zipWith (fun _ b => b) l l2 = l2 := by
  induction l generalizing l2 with
  | nil =>
      cases l2 with
      | nil => rfl
      | cons b l2 => simp at h
  | cons a l ih =>
      cases l2 with
      | nil => rfl
      | cons b l2 =>
          rw [List.zipWith_cons_cons, ih l2 (by simpa using h)]

lemma filter_ne_eq_self {l : List String} {u : String} (h : u ∉ l) :
    l.filter (fun x => decide (x ≠ u)) = l := by
  apply List.filter_eq_self.mpr
  intro a ha
  simp only [decide_eq_true_eq]
  intro hh
  exact h (hh ▸ ha)

lemma filter_row_ne_eq_self {r : Row} {u : String} (h : u ∉ r.map Prod.fst) :
    r.filter (fun kv => decide (kv.1 ≠ u)) = r := by
  apply List.filter_eq_self.mpr
  intro kv hkv
  simp only [decide_eq_true_eq]
  intro hh
  exact h (hh ▸ List.mem_map_of_mem Prod.fst hkv)

lemma unionCols_single (d : DF) : unionCols [d] = d.cols := by
  rw [unionCols, List.foldl_cons, List.foldl_nil, unionStep]
  simp

lemma reindex_eq_self (r : Row) (hnd : (r.map Prod.fst).Nodup) :
    (r.map Prod.fst).map (fun c => (c, rowCell r c)) = r := by
  induction r with
  | nil => rfl
  | cons kv r ih =>
      obtain ⟨k, v⟩ := kv
      rw [List.map_cons] at hnd ⊢
      rw [List.map_cons]
      obtain ⟨hk, hnd2⟩ := List.nodup_cons.mp hnd
      congr 1
      · show (k, rowCell ((k, v) :: r) k) = (k, v)
        have : rowCell ((k, v) :: r) k = v := by
          simp [rowCell, List.lookup_cons]
        rw [this]
      · have hcong : ∀ c ∈ r.map Prod.fst,
            (c, rowCell ((k, v) :: r) c) = (c, rowCell r c) := by
          intro c hc
          have hck : (c == k) = false :=
            beq_eq_false_iff_ne.mpr (fun hh => hk (hh ▸ hc))
          rw [rowCell, List.lookup_cons]
          simp [hck, rowCell]
        rw [List.map_congr_left hcong, ih hnd2]

lemma exists_of_mem_zipWith {α β γ : Type} {f : α → β → γ} {l : List α} {l2 : List β} {x : γ}
    (h : x ∈ List.zipWith f l l2) : ∃ a b, a ∈ l ∧ b ∈ l2 ∧ x = f a b := by
  induction l generalizing l2 with
  | nil => simp at h
  | cons a l ih =>
      cases l2 with
      | nil => simp at h
      | cons b l2 =>
          rw [List.zipWith_cons_cons, List.mem_cons] at h
          rcases h with h | h
          · exact ⟨a, b, List.mem_cons_self a l, List.mem_cons_self b l2, h⟩
          · obtain ⟨a', b', ha, hb, hx⟩ := ih h
            exact ⟨a', b', List.mem_cons_of_mem _ ha, List.mem_cons_of_mem _ hb, hx⟩

/-- Re-importing a single well-labelled file runs the upload merge path
as the identity on columns and (filtered) rows. -/
lemma merge_single_wf (p : Cell → Option String) (cs : List String) (B : List Row)
    (hnd : ("queryTime" :: cs).Nodup)
    (hU : "Unnamed: 0" ∉ cs)
    (hlab : ∀ rr ∈ B, rr.map Prod.fst = "queryTime" :: cs) :
    mergeTables p [{ cols := "queryTime" :: cs, rows := B }] =
      some (parseIndex p
        { indexName := "queryTime"
          index := B.map (fun rr => rowCell rr "queryTime")
          cols := cs
          rows := B.map (fun rr => rr.filter (fun kv => decide (kv.1 ≠ "queryTime"))) }) := by
  obtain ⟨hqt_notin, _⟩ := List.nodup_cons.mp hnd
  have hUc : "Unnamed: 0" ∉ "queryTime" :: cs := by
    intro hmem
    rcases List.mem_cons.mp hmem with h | h
    · exact absurd h (by decide)
    · exact hU h
  have h1 : concatTables [{ cols := "queryTime" :: cs, rows := B }] =
      { cols := "queryTime" :: cs, rows := B } := by
    rw [concatTables]
    congr 1
    · exact unionCols_single _
    · rw [List.flatMap_singleton, unionCols_single]
      show B.map (fun r => ("queryTime" :: cs).map (fun c => (c, rowCell r c))) = B
      have hpt : ∀ rr ∈ B,
          ("queryTime" :: cs).map (fun c => (c, rowCell rr c)) = (fun rr => rr) rr := by
        intro rr hrr
        show _ = rr
        rw [← hlab rr hrr]
        exact reindex_eq_self rr (by rw [hlab rr hrr]; exact hnd)
      rw [List.map_congr_left hpt]
      exact List.map_id' B
  have h2 : dropCol "Unnamed: 0" ({ cols := "queryTime" :: cs, rows := B } : DF) =
      { cols := "queryTime" :: cs, rows := B } := by
    rw [dropCol]
    congr 1
    · exact filter_ne_eq_self hUc
    · have hpt : ∀ rr ∈ B,
          rr.filter (fun kv => decide (kv.1 ≠ "Unnamed: 0")) = (fun rr => rr) rr := by
        intro rr hrr
        apply filter_row_ne_eq_self
        rw [hlab rr hrr]
        exact hUc
      rw [List.map_congr_left hpt]
      exact List.map_id' B
  have h3 : setIndexCol "queryTime" ({ cols := "queryTime" :: cs, rows := B } : DF) =
      some { indexName := "queryTime"
             index := B.map (fun rr => rowCell rr "queryTime")
             cols := cs
             rows := B.map (fun rr => rr.filter (fun kv => decide (kv.1 ≠ "queryTime"))) } := by
    rw [setIndexCol, if_pos (List.mem_cons_self _ _)]
    have hcols : ("queryTime" :: cs).filter (fun x => decide (x ≠ "queryTime")) = cs := by
      rw [List.filter_cons, if_neg (by simp)]
      exact filter_ne_eq_self hqt_notin
    rw [hcols]
  show (setIndexCol "queryTime" (dropCol "Unnamed: 0"
      (concatTables [{ cols := "queryTime" :: cs, rows := B }]))).map (parseIndex p) = _
  rw [h1, h2, h3]
  rfl

/-- C9 (amended): exporting the merged table to CSV and re-importing it
through the upload path reproduces the same columns and the same rows,
provided every data cell survives the cell-level CSV coding (no cell
holds a string that is an NA token — in particular not the empty
string — or that parses as a number, and numbers re-parse to
themselves). -/
theorem roundTrip_preserves (renderN : ℚ → String) (parseNum : String → Option ℚ)
    (p : Cell → Option String) (t : IDF)
    (hqn : t.indexName = "queryTime")
    (hnd : ("queryTime" :: t.cols).Nodup)
    (hU : "Unnamed: 0" ∉ t.cols)
    (hWFr : ∀ r ∈ t.rows, r.map Prod.fst = t.cols)
    (hlen : t.rows.length ≤ t.index.length)
    (hgood : ∀ r ∈ t.rows, ∀ kv ∈ r, GoodCell renderN parseNum kv.2) :
    ∃ t2, roundTrip renderN parseNum p t = some t2 ∧
      t2.cols = t.cols ∧ t2.rows = t.rows := by
  obtain ⟨hqt_notin, _⟩ := List.nodup_cons.mp hnd
  have hrows1 : (List.zipWith (fun ix (r : Row) =>
        renderCell renderN ix :: r.map (fun kv => renderCell renderN kv.2))
        t.index t.rows).map
      (fun rec => List.zip ("queryTime" :: t.cols) (rec.map (parseCell parseNum))) =
      List.zipWith (fun ix (r : Row) =>
        ("queryTime", parseCell parseNum (renderCell renderN ix)) :: r) t.index t.rows := by
    rw [List.map_zipWith]
    apply zipWith_congr_right
    intro r hr ix
    show List.zip ("queryTime" :: t.cols)
        ((renderCell renderN ix :: r.map (fun kv => renderCell renderN kv.2)).map
          (parseCell parseNum)) =
      ("queryTime", parseCell parseNum (renderCell renderN ix)) :: r
    rw [List.map_cons, List.zip_cons_cons]
    congr 1
    rw [List.map_map]
    have hps : r.map ((parseCell parseNum) ∘ fun kv => renderCell renderN kv.2) =
        r.map Prod.snd := by
      apply List.map_congr_left
      intro kv hkv
      exact parseCell_renderCell renderN parseNum kv.2 (hgood r hr kv hkv)
    rw [hps, ← hWFr r hr, zip_map_fst_snd]
  have hB : ∀ rr ∈ List.zipWith (fun ix (r : Row) =>
      ("queryTime", parseCell parseNum (renderCell renderN ix)) :: r) t.index t.rows,
      rr.map Prod.fst = "queryTime" :: t.cols := by
    intro rr hrr
    obtain ⟨ix, r, _, hr, rfl⟩ := exists_of_mem_zipWith hrr
    rw [List.map_cons, hWFr r hr]
  have hfilter : (List.zipWith (fun ix (r : Row) =>
      ("queryTime", parseCell parseNum (renderCell renderN ix)) :: r) t.index t.rows).map
      (fun rr => rr.filter (fun kv => decide (kv.1 ≠ "queryTime"))) = t.rows := by
    rw [List.map_zipWith]
    have hz : List.zipWith (fun ix (r : Row) =>
        (("queryTime", parseCell parseNum (renderCell renderN ix)) :: r).filter
          (fun kv => decide (kv.1 ≠ "queryTime"))) t.index t.rows =
        List.zipWith (fun _ (r : Row) => r) t.index t.rows := by
      apply zipWith_congr_right
      intro r hr ix
      rw [List.filter_cons, if_neg (by simp)]
      apply filter_row_ne_eq_self
      rw [hWFr r hr]
      exact hqt_notin
    rw [hz, zipWith_snd_eq _ _ hlen]
  refine ⟨parseIndex p
    { indexName := "queryTime"
      index := (List.zipWith (fun ix (r : Row) =>
        ("queryTime", parseCell parseNum (renderCell renderN ix)) :: r) t.index t.rows).map
          (fun rr => rowCell rr "queryTime")
      cols := t.cols
      rows := (List.zipWith (fun ix (r : Row) =>
        ("queryTime", parseCell parseNum (renderCell renderN ix)) :: r) t.index t.rows).map
          (fun rr => rr.filter (fun kv => decide (kv.1 ≠ "queryTime"))) }, ?_, rfl, ?_⟩
  · have e0 : roundTrip renderN parseNum p t = mergeTables p
        [({ cols := t.indexName :: t.cols
            rows := (List.zipWith (fun ix (r : Row) =>
                renderCell renderN ix :: r.map (fun kv => renderCell renderN kv.2))
                t.index t.rows).map
              (fun rec => List.zip (t.indexName :: t.cols)
                (rec.map (parseCell parseNum))) } : DF)] := rfl
    rw [e0, hqn, hrows1]
    exact merge_single_wf p t.cols _ hnd hU hB
  · show (List.zipWith (fun ix (r : Row) =>
        ("queryTime", parseCell parseNum (renderCell renderN ix)) :: r) t.index t.rows).map
          (fun rr => rr.filter (fun kv => decide (kv.1 ≠ "queryTime"))) = t.rows
    exact hfilter

/-- A merged one-row table holding an empty-string cell. -/
def dfRT : IDF :=
  { indexName := "queryTime"
    index := [Cell.str "2024-01-01 00:00:00"]
    cols := ["title"]
    rows := [[("title", Cell.str "")]] }

/-- Counterexample to C9 as stated: exporting `dfRT` and re-importing
it does not reproduce the row set — the empty-string cell is written as
an empty CSV field and read back as a missing value. -/
theorem roundTrip_changes_rows :
    (roundTrip (fun _ => "") (fun _ => none) (fun _ => none) dfRT).map IDF.rows =
      some [[("title", Cell.na)]] ∧
    dfRT.rows ≠ [[("title", Cell.na)]] := by
  decide

/-- Numeric rendering for the round-trip witness. -/
def rnW : ℚ → String := fun q => if q = 1 then "1" else "q"

/-- Numeric parsing for the round-trip witness. -/
def pnW : String → Option ℚ := fun s => if s = "1" then some 1 else none

/-- A merged table whose cells all survive the CSV coding. -/
def dfW : IDF :=
  { indexName := "queryTime"
    index := [Cell.str "2024-01-01 00:00:00"]
    cols := ["title", "rank"]
    rows := [[("title", Cell.str "A"), ("rank", Cell.num 1)]] }

/-- Witness for the amended C9 on a concrete well-coded table. -/
theorem roundTrip_preserves_witness :
    ∃ t2, roundTrip rnW pnW (fun _ => none) dfW = some t2 ∧
      t2.cols = dfW.cols ∧ t2.rows = dfW.rows :=
  roundTrip_preserves rnW pnW (fun _ => none) dfW rfl (by decide) (by decide)
    (by intro r hr; simp [dfW] at hr; rw [hr]; rfl)
    (by decide)
    (by
      intro r hr kv hkv
      simp [dfW] at hr
      subst hr
      simp at hkv
      rcases hkv with rfl | rfl
      · exact ⟨by decide, by decide⟩
      · exact ⟨by decide, by decide⟩)
